import Mathlib

/-!
Shallow embedding of the prairielearn-viz data-aggregation core.

The Python source keeps three variants of the same classes:
  * src/pl_viz/{course,student,assessment}.py  (the package; primary),
  * prairielearn_classes.py                    (legacy variant, namespace PC below),
  * helper.py                                  (legacy aggregator).

Python objects are modelled with an explicit heap: a Student / Course /
Assessment instance is a cell in a list, and an object reference is the
cell's index.  Reference equality of instances is equality of indices.
Dictionaries (the shared registries, keyed by id) are association lists in
insertion order; lookup returns the first match, as a Python dict does for
its unique keys.  HTTP responses are passed in as explicit data
(status code plus decoded JSON body); `requests.get` is out of scope.
Raised Python exceptions are modelled with `Except PlError`.
-/

/-- Errors raised by the source: `ValueError` on a failed fetch (carrying the
transport status code), `ValueError` for empty statistics input (pl_api.py),
`ValueError` for a bad selector combination in `find_students`, plus the
builtin `ZeroDivisionError` and `TypeError` where the source actually runs
into them. -/
inductive PlError where
  | fetchFailed (status : Nat)
  | noData
  | invalidArgument
  | zeroDivisionError
  | typeError
  deriving DecidableEq, Repr

instance {ε α : Type} [DecidableEq ε] [DecidableEq α] : DecidableEq (Except ε α) := fun x y =>
  match x, y with
  | .error a, .error b =>
      if h : a = b then .isTrue (by rw [h]) else .isFalse (by intro hc; cases hc; exact h rfl)
  | .error _, .ok _ => .isFalse (by intro hc; cases hc)
  | .ok _, .error _ => .isFalse (by intro hc; cases hc)
  | .ok a, .ok b =>
      if h : a = b then .isTrue (by rw [h]) else .isFalse (by intro hc; cases hc; exact h rfl)

/-- GradeRecord: one entry of `Student.grades` as built by
`Student.fetch_all_grades` (student.py lines 53-61). -/
structure GradeRecord where
  course_code : String
  course_id : Nat
  assessment_id : Nat
  assessment_name : String
  assessment_label : String
  score_perc : Option ℚ
  deriving DecidableEq, Repr

/-- Student (src/pl_viz/student.py lines 6-16).  `courses` holds object
references (heap indices) to Course instances. -/
structure Student where
  user_id : Nat
  user_name : String
  user_uid : String
  token : String
  courses : List Nat
  grades : List GradeRecord
  deriving DecidableEq, Repr

instance : Inhabited Student := ⟨⟨0, "", "", "", [], []⟩⟩

/-- Course (src/pl_viz/course.py lines 8-17).  `students` and `assessments`
hold object references (heap indices). -/
structure Course where
  course_code : String
  course_id : Nat
  token : String
  students : List Nat
  assessments : List Nat
  deriving DecidableEq, Repr

instance : Inhabited Course := ⟨⟨"", 0, "", [], []⟩⟩

/-- Assessment (src/pl_viz/assessment.py lines 8-18). -/
structure Assessment where
  assessment_id : Nat
  name : String
  label : String
  course_id : Nat
  token : String
  scores : List ℚ
  deriving DecidableEq, Repr

instance : Inhabited Assessment := ⟨⟨0, "", "", 0, "", []⟩⟩

/-- Dereference a Student object reference (a heap index). -/
def heapGet (h : List Student) (a : Nat) : Student :=
  (h[a]?).getD default

/-- Dereference a Course object reference. -/
def heapGetC (h : List Course) (a : Nat) : Course :=
  (h[a]?).getD default

/-- Dereference an Assessment object reference. -/
def heapGetA (h : List Assessment) (a : Nat) : Assessment :=
  (h[a]?).getD default

/-- Mutate the Student object at heap index `a` in place. -/
def heapModify (h : List Student) (a : Nat) (f : Student → Student) : List Student :=
  h.set a (f (heapGet h a))

/-- Dictionary lookup on an insertion-ordered association list
(`student_id in global_students` / `global_students[student_id]`). -/
def lookupReg (reg : List (Nat × Nat)) (k : Nat) : Option Nat :=
  (reg.find? (fun p => p.1 == k)).map Prod.snd

/-- Student.add_course (src/pl_viz/student.py lines 18-21):
`if course not in self.courses: self.courses.append(course)`.
Course defines no `__eq__`, so the membership test `in` falls back to
object identity, i.e. equality of heap indices. -/
def add_course (s : Student) (course : Nat) : Student :=
  if course ∈ s.courses then s else { s with courses := s.courses ++ [course] }

/-- One row of the decoded gradebook JSON used by `Course.fetch_students`
(fields `user_id`, `user_name`, `user_uid`). -/
structure Row where
  user_id : Nat
  user_name : String
  user_uid : String
  deriving DecidableEq, Repr

/-- Decoded transport response for the gradebook endpoint. -/
structure GradebookResp where
  status : Nat
  body : List Row
  deriving DecidableEq, Repr

/-- State threaded through the roster loop of `Course.fetch_students`:
the Student heap, the shared registry `global_students`, and the course's
own `students` list. -/
structure FetchSt where
  heap : List Student
  reg : List (Nat × Nat)
  students : List Nat
  deriving DecidableEq, Repr

/-- A fresh Student as built at src/pl_viz/course.py line 37:
`Student(student_id, name, email, self.token)`. -/
def mkStudent (row : Row) (tok : String) : Student :=
  ⟨row.user_id, row.user_name, row.user_uid, tok, [], []⟩

/-- Loop body of `Course.fetch_students` for one gradebook row, with a shared
registry supplied (src/pl_viz/course.py lines 30-46): look the `user_id` up in
`global_students`, creating and registering a fresh Student on a miss; then
`student_instance.add_course(self)` and append the instance to the course's
`students` list.  `cAddr` is the object reference of the course (`self`). -/
def process_row (cAddr : Nat) (tok : String) (st : FetchSt) (row : Row) : FetchSt :=
  let pick : FetchSt × Nat :=
    match lookupReg st.reg row.user_id with
    | none =>
        let addr := st.heap.length
        ({ st with heap := st.heap ++ [mkStudent row tok],
                   reg := st.reg ++ [(row.user_id, addr)] }, addr)
    | some addr => (st, addr)
  { pick.1 with
      heap := heapModify pick.1.heap pick.2 (fun s => add_course s cAddr),
      students := pick.1.students ++ [pick.2] }

/-- The roster loop of `Course.fetch_students` (registry path), over all rows
of a 200 response body. -/
def runRows (cAddr : Nat) (tok : String) (st : FetchSt) (rows : List Row) : FetchSt :=
  rows.foldl (process_row cAddr tok) st

/-- Result of a `Course.fetch_students` call: the raised-or-returned outcome
plus the state of the course object, the Student heap and the optional shared
registry after the call. -/
structure FetchOut where
  result : Except PlError Unit
  course : Course
  heap : List Student
  greg : Option (List (Nat × Nat))
  deriving Repr

/-- Course.fetch_students (src/pl_viz/course.py lines 19-51).  On a non-200
status it raises `ValueError(f"Failed to fetch students. Status Code: ...")`
before touching any state.  With no registry supplied, the source calls
`Student(student_id, name, email)` (line 42), which omits the required
`token` parameter of `Student.__init__` and raises `TypeError` on the first
roster row. -/
def fetch_students (cAddr : Nat) (c : Course) (heap : List Student)
    (greg : Option (List (Nat × Nat))) (resp : GradebookResp) : FetchOut :=
  if resp.status = 200 then
    match greg with
    | some reg =>
        let st := runRows cAddr c.token ⟨heap, reg, c.students⟩ resp.body
        ⟨.ok (), { c with students := st.students }, st.heap, some st.reg⟩
    | none =>
        match resp.body with
        | [] => ⟨.ok (), c, heap, none⟩
        | _ :: _ => ⟨.error .typeError, c, heap, none⟩
  else
    ⟨.error (.fetchFailed resp.status), c, heap, greg⟩

/-- Global shared state of an aggregation pass: the Student heap and the
shared registry `global_students`. -/
structure GState where
  heap : List Student
  reg : List (Nat × Nat)
  deriving DecidableEq, Repr

/-- One course's successful `fetch_students` within an aggregation pass:
the course object reference and the 200-response roster it received. -/
structure PassStep where
  cAddr : Nat
  rows : List Row
  deriving DecidableEq, Repr

/-- Run a sequence of successful `fetch_students` calls, each by a freshly
constructed course (empty `students` list), against the shared state. -/
def runPassG (tok : String) (g : GState) (steps : List PassStep) : GState :=
  steps.foldl
    (fun g step =>
      let st := runRows step.cAddr tok ⟨g.heap, g.reg, []⟩ step.rows
      ⟨st.heap, st.reg⟩) g

/-- One decoded submission of the assessment_instances endpoint: its
`score_perc` field, absent/null modelled as `none`. -/
def Submission : Type := Option ℚ

/-- Decoded transport response for the assessment_instances endpoint. -/
structure SubResp where
  status : Nat
  body : List (Option ℚ)
  deriving DecidableEq, Repr

/-- Score extraction of `Assessment.fetch_submissions`
(src/pl_viz/assessment.py line 28):
`[submission.get("score_perc", 0) for submission in submissions
  if submission.get("score_perc") is not None]`.
The default 0 of `.get` is kept, although the filter makes it dead. -/
def extractScores (subs : List (Option ℚ)) : List ℚ :=
  (subs.filter (fun o => o.isSome)).map (fun o => o.getD 0)

/-- Assessment.fetch_submissions (src/pl_viz/assessment.py lines 20-30):
on a 200 response replace `scores` wholesale with the extracted list, else
raise `ValueError` carrying the status code. -/
def fetch_submissions (a : Assessment) (resp : SubResp) : Except PlError Assessment :=
  if resp.status = 200 then
    .ok { a with scores := extractScores resp.body }
  else
    .error (.fetchFailed resp.status)

/-- Sum of a score list, as Python `sum` (left fold from 0). -/
def sumScores (l : List ℚ) : ℚ := l.foldl (· + ·) 0

/-- Maximum of a nonempty score list, as Python `max`. -/
def maxScore (l : List ℚ) : ℚ :=
  match l with
  | [] => 0
  | x :: xs => xs.foldl max x

/-- Minimum of a nonempty score list, as Python `min`. -/
def minScore (l : List ℚ) : ℚ :=
  match l with
  | [] => 0
  | x :: xs => xs.foldl min x

/-- Insertion into a sorted list, ascending. -/
def insertSorted (x : ℚ) : List ℚ → List ℚ
  | [] => [x]
  | y :: ys => if x ≤ y then x :: y :: ys else y :: insertSorted x ys

/-- Ascending insertion sort, used to model the sort inside
`statistics.median`. -/
def sortScores (l : List ℚ) : List ℚ := l.foldr insertSorted []

/-- Python statistics.median: middle element of the sorted data for odd
length, average of the two middles for even length. -/
def medianScore (l : List ℚ) : ℚ :=
  let s := sortScores l
  let n := s.length
  if n % 2 = 1 then (s[n / 2]?).getD 0
  else (((s[n / 2 - 1]?).getD 0) + ((s[n / 2]?).getD 0)) / 2

/-- Summary-statistics record returned by
`Assessment.get_summary_statistics` in the pl_viz package. -/
structure Stats where
  num_submissions : Nat
  mean_score : ℚ
  median_score : ℚ
  max_score : ℚ
  min_score : ℚ
  deriving DecidableEq, Repr

/-- Assessment.get_summary_statistics (src/pl_viz/assessment.py lines 32-44):
lazily fetch when `scores` is empty, then build the summary dict.  The dict
construction evaluates `sum(self.scores) / len(self.scores)` with no
emptiness guard, so an empty score list raises `ZeroDivisionError`.
`resp` is the transport response the lazy fetch would receive. -/
def get_summary_statistics (a : Assessment) (resp : SubResp) : Except PlError Stats :=
  match (if a.scores.isEmpty then fetch_submissions a resp else .ok a) with
  | .error e => .error e
  | .ok a1 =>
      if a1.scores.isEmpty then .error .zeroDivisionError
      else
        .ok { num_submissions := a1.scores.length,
              mean_score := sumScores a1.scores / (a1.scores.length : ℚ),
              median_score := medianScore a1.scores,
              max_score := maxScore a1.scores,
              min_score := minScore a1.scores }

/-- Assessment.get_summary_statistics of the typed variant
(src/pl_viz/pl_api.py lines 324-359): same lazy fetch, but an explicit
`raise ValueError("No scores available to compute statistics.")` when the
score list is still empty. -/
def get_summary_statistics_api (a : Assessment) (resp : SubResp) : Except PlError Stats :=
  match (if a.scores.isEmpty then fetch_submissions a resp else .ok a) with
  | .error e => .error e
  | .ok a1 =>
      if a1.scores.isEmpty then .error .noData
      else
        .ok { num_submissions := a1.scores.length,
              mean_score := sumScores a1.scores / (a1.scores.length : ℚ),
              median_score := medianScore a1.scores,
              max_score := maxScore a1.scores,
              min_score := minScore a1.scores }

namespace PC

/-- Assessment of the legacy variant (prairielearn_classes.py lines 173-184):
no stored token, and a `submissions_fetched` flag set by
`fetch_submissions`. -/
structure Assessment where
  assessment_id : Nat
  name : String
  label : String
  course_id : Nat
  submissions_fetched : Bool
  scores : List ℚ
  deriving DecidableEq, Repr

/-- Summary record of the legacy variant: on an empty score list every
statistic is `None` (prairielearn_classes.py lines 206-213). -/
structure Stats where
  num_submissions : Nat
  mean_score : Option ℚ
  median_score : Option ℚ
  max_score : Option ℚ
  min_score : Option ℚ
  deriving DecidableEq, Repr

/-- Assessment.fetch_submissions of the legacy variant
(prairielearn_classes.py lines 186-197): same score extraction, and it sets
the `submissions_fetched` flag. -/
def fetch_submissions (a : Assessment) (resp : SubResp) : Except PlError Assessment :=
  if resp.status = 200 then
    .ok { a with scores := extractScores resp.body, submissions_fetched := true }
  else
    .error (.fetchFailed resp.status)

/-- Assessment.get_summary_statistics of the legacy variant
(prairielearn_classes.py lines 199-221): with submissions not yet fetched it
prints a reminder and returns `None`; with an empty fetched score list it
returns a record with `num_submissions = 0` and `None` statistics; otherwise
the filled record.  It never raises. -/
def get_summary_statistics (a : Assessment) : Option Stats :=
  if a.submissions_fetched = false then none
  else if a.scores.isEmpty then
    some ⟨0, none, none, none, none⟩
  else
    some ⟨a.scores.length,
          some (sumScores a.scores / (a.scores.length : ℚ)),
          some (medianScore a.scores),
          some (maxScore a.scores),
          some (minScore a.scores)⟩

end PC

/-- Shape of one value of the dictionary returned by `find_students`
(src/pl_viz/student.py lines 199-227): `None` for no match, the single
Student instance, or the full list of matches on ambiguity. -/
inductive FindResult where
  | notFound
  | one (s : Student)
  | many (ss : List Student)
  deriving DecidableEq, Repr

/-- Python truthiness of an optional list argument: `None` and the empty
list are falsy, a nonempty list is truthy. -/
def truthyOpt (o : Option (List String)) : Bool :=
  match o with
  | none => false
  | some l => !l.isEmpty

/-- Name branch of `find_students` (src/pl_viz/student.py lines 204-215):
collect the registered students whose `user_name` equals the query, then
return the single match, all matches on ambiguity, or `None`. -/
def find_by_name (students : List Student) (name : String) : FindResult :=
  let found := students.filter (fun s => s.user_name == name)
  if found.length = 1 then .one (found.headI)
  else if found.length > 1 then .many found
  else .notFound

/-- CWL branch of `find_students` (src/pl_viz/student.py lines 219-227):
append the fixed domain suffix and take the first student whose `user_uid`
matches, else `None`. -/
def find_by_cwl (students : List Student) (cwl : String) : FindResult :=
  match students.find? (fun s => s.user_uid == cwl ++ "@ubc.ca") with
  | some s => .one s
  | none => .notFound

/-- find_students (src/pl_viz/student.py lines 173-229).  The validation
`if (user_names and cwls) or (not user_names and not cwls)` is a Python
truthiness test: `None` and an empty list both count as not supplied.
`students` is `global_students.values()` in insertion order; the returned
dictionary is modelled as the association list of (query, result) pairs in
loop order.  Inputs are the list forms (the string-normalization wrappers of
lines 194-197 are identities on lists). -/
def find_students (students : List Student)
    (user_names cwls : Option (List String)) :
    Except PlError (List (String × FindResult)) :=
  if (truthyOpt user_names && truthyOpt cwls)
      || (!truthyOpt user_names && !truthyOpt cwls) then
    .error .invalidArgument
  else
    let nameResults :=
      match user_names with
      | some names => names.map (fun n => (n, find_by_name students n))
      | none => []
    let cwlResults :=
      match cwls with
      | some cs => cs.map (fun c => (c, find_by_cwl students c))
      | none => []
    .ok (nameResults ++ cwlResults)

/-- Outcome of `Course.plot_boxplot` / `Course.plot_histogram`: either the
printed "No data available to plot." early return, or a chart handed to the
renderer over the collected `(assessment_name, score)` rows. -/
inductive PlotOutcome where
  | noData
  | chart (rows : List (String × ℚ))
  deriving DecidableEq, Repr

/-- Collection loop shared verbatim by `Course.plot_boxplot` (course.py lines
133-145) and `Course.plot_histogram` (lines 187-199): for each assessment,
gated on `if assessment_label and assessment.label in assessment_label`,
fetch its submissions and extend `data` with labelled scores.  `env` gives
each assessment's (assumed 200) submission body; the second component of the
state records which assessments had `fetch_submissions` invoked. -/
def collectPlotData (assessments : List Assessment) (env : Nat → List (Option ℚ))
    (assessment_label : Option (List String)) : List (String × ℚ) × List Nat :=
  assessments.foldl
    (fun acc a =>
      if truthyOpt assessment_label
          && (assessment_label.getD []).contains a.label then
        let scores := extractScores (env a.assessment_id)
        (acc.1 ++ scores.map (fun sc => (a.name ++ " (" ++ a.label ++ ")", sc)),
         acc.2 ++ [a.assessment_id])
      else acc)
    ([], [])

/-- Course.plot_boxplot (src/pl_viz/course.py lines 122-173), given the
course's (already fetched) assessments.  Returns the outcome together with
the list of assessments whose `fetch_submissions` the loop invoked. -/
def plot_boxplot (assessments : List Assessment) (env : Nat → List (Option ℚ))
    (assessment_label : Option (List String)) : PlotOutcome × List Nat :=
  let (data, fetched) := collectPlotData assessments env assessment_label
  if data.isEmpty then (.noData, fetched) else (.chart data, fetched)

/-- Course.plot_histogram (src/pl_viz/course.py lines 176-226): identical
data collection and emptiness check; `bins` only shapes the chart spec. -/
def plot_histogram (assessments : List Assessment) (env : Nat → List (Option ℚ))
    (assessment_label : Option (List String)) (bins : Nat) : PlotOutcome × List Nat :=
  let (data, fetched) := collectPlotData assessments env assessment_label
  if data.isEmpty then (.noData, fetched) else (.chart data, fetched)

/-- One row of the decoded assessments JSON used by
`Course.fetch_assessments`. -/
structure ARow where
  assessment_id : Nat
  assessment_name : String
  assessment_label : String
  deriving DecidableEq, Repr

/-- Decoded transport response for the assessments endpoint. -/
structure AssessResp where
  status : Nat
  body : List ARow
  deriving DecidableEq, Repr

/-- State threaded through the loop of `Course.fetch_assessments`: the
Assessment heap, the shared registry `global_assessments`, and the course's
own `assessments` list. -/
structure AFetchSt where
  aheap : List Assessment
  areg : List (Nat × Nat)
  assessments : List Nat
  deriving DecidableEq, Repr

/-- Loop body of `Course.fetch_assessments` with a shared registry
(src/pl_viz/course.py lines 62-81): on a registry miss create
`Assessment(assessment_id, assessment_name, assessment_label,
self.course_id, self.token)` and register it; always append
`global_assessments[assessment_id]` to the course's list. -/
def process_arow (course_id : Nat) (tok : String) (st : AFetchSt) (row : ARow) : AFetchSt :=
  let pick : AFetchSt × Nat :=
    match lookupReg st.areg row.assessment_id with
    | none =>
        let addr := st.aheap.length
        ({ st with
            aheap := st.aheap ++
              [⟨row.assessment_id, row.assessment_name, row.assessment_label,
                course_id, tok, []⟩],
            areg := st.areg ++ [(row.assessment_id, addr)] }, addr)
    | some addr => (st, addr)
  { pick.1 with assessments := pick.1.assessments ++ [pick.2] }

/-- The loop of `Course.fetch_assessments` (registry path) over all rows of
a 200 response body. -/
def runARows (course_id : Nat) (tok : String) (st : AFetchSt) (rows : List ARow) : AFetchSt :=
  rows.foldl (process_arow course_id tok) st

/-- Python dict assignment `d[k] = v` on an insertion-ordered association
list: replace the value in place when the key exists, else append. -/
def dictInsert (d : List (String × Nat)) (k : String) (v : Nat) : List (String × Nat) :=
  if d.any (fun p => p.1 == k) then
    d.map (fun p => if p.1 == k then (k, v) else p)
  else d ++ [(k, v)]

/-- Object heaps owned by one aggregation pass of `fetch_data`. -/
structure Heaps where
  cheap : List Course
  sheap : List Student
  aheap : List Assessment
  deriving DecidableEq, Repr

/-- Internal state of the `fetch_data` loop (src/pl_viz/student.py lines
157-171): the three object heaps plus the dictionaries `global_courses`
(course_code to Course reference), `global_students` (user_id to Student
reference) and `global_assessments` (assessment_id to Assessment
reference). -/
structure AggState where
  cheap : List Course
  sheap : List Student
  aheap : List Assessment
  gcourses : List (String × Nat)
  sreg : List (Nat × Nat)
  areg : List (Nat × Nat)
  deriving DecidableEq, Repr

/-- One iteration of the `fetch_data` loop for the entry
(course_code, course_id): construct `Course(course_code, course_id, token)`,
store it in `global_courses[course_code]`, then run
`course.fetch_students(global_students)` and
`course.fetch_assessments(global_assessments)`, either of which raises on a
non-200 response.  `rEnv` / `aEnv` give the transport responses per
course_id. -/
def fetch_data_step (tok : String) (rEnv : Nat → GradebookResp)
    (aEnv : Nat → AssessResp) (st : AggState) (spec : String × Nat) :
    Except PlError AggState :=
  let cAddr := st.cheap.length
  let c0 : Course := ⟨spec.1, spec.2, tok, [], []⟩
  let gcourses := dictInsert st.gcourses spec.1 cAddr
  if (rEnv spec.2).status = 200 then
    let f := runRows cAddr tok ⟨st.sheap, st.sreg, c0.students⟩ (rEnv spec.2).body
    let c1 : Course := { c0 with students := f.students }
    if (aEnv spec.2).status = 200 then
      let g := runARows spec.2 tok ⟨st.aheap, st.areg, c1.assessments⟩ (aEnv spec.2).body
      let c2 : Course := { c1 with assessments := g.assessments }
      .ok { cheap := st.cheap ++ [c2], sheap := f.heap, aheap := g.aheap,
            gcourses := gcourses, sreg := f.reg, areg := g.areg }
    else .error (.fetchFailed (aEnv spec.2).status)
  else .error (.fetchFailed (rEnv spec.2).status)

/-- The `fetch_data` loop over the entries of `course_ids` in iteration
order, short-circuiting on the first raised error. -/
def fetch_data_go (tok : String) (rEnv : Nat → GradebookResp)
    (aEnv : Nat → AssessResp) (st : AggState) :
    List (String × Nat) → Except PlError AggState
  | [] => .ok st
  | spec :: rest =>
      match fetch_data_step tok rEnv aEnv st spec with
      | .error e => .error e
      | .ok st1 => fetch_data_go tok rEnv aEnv st1 rest

/-- fetch_data (src/pl_viz/student.py lines 157-171): fresh empty registries,
the loop over `course_ids`, and the returned triple
`(global_courses, global_assessments, global_students)`.  The heaps are
returned alongside, standing for the Python object store the dictionary
values point into. -/
def fetch_data (course_ids : List (String × Nat)) (tok : String)
    (rEnv : Nat → GradebookResp) (aEnv : Nat → AssessResp) :
    Except PlError ((List (String × Nat) × List (Nat × Nat) × List (Nat × Nat)) × Heaps) :=
  match fetch_data_go tok rEnv aEnv ⟨[], [], [], [], [], []⟩ course_ids with
  | .error e => .error e
  | .ok st => .ok ((st.gcourses, st.areg, st.sreg), ⟨st.cheap, st.sheap, st.aheap⟩)

/-- Well-formedness of the shared student registry against the Student heap:
every entry points to a live Student whose `user_id` is the entry's key, and
the keys are unique (it models a Python dict). -/
def WF (heap : List Student) (reg : List (Nat × Nat)) : Prop :=
  (∀ p ∈ reg, p.2 < heap.length ∧ (heapGet heap p.2).user_id = p.1) ∧
  (reg.map Prod.fst).Nodup

/-- Course reference `x` appears in no Student's `courses` list: the course
has not fetched its roster yet. -/
def freshC (x : Nat) (heap : List Student) : Prop :=
  ∀ a < heap.length, (heapGet heap a).courses.count x = 0

/-- Well-formedness of the shared assessment registry against the Assessment
heap. -/
def WFA (aheap : List Assessment) (areg : List (Nat × Nat)) : Prop :=
  (∀ p ∈ areg, p.2 < aheap.length ∧ (heapGetA aheap p.2).assessment_id = p.1) ∧
  (areg.map Prod.fst).Nodup

/-- Key-consistency of the `global_courses` dictionary against the Course
heap. -/
def WFC (cheap : List Course) (gcourses : List (String × Nat)) : Prop :=
  ∀ p ∈ gcourses, p.2 < cheap.length ∧ (heapGetC cheap p.2).course_code = p.1

theorem heapGet_append_lt (h t : List Student) (a : Nat) (ha : a < h.length) :
    heapGet (h ++ t) a = heapGet h a := by
  simp [heapGet, List.getElem?_append_left ha]

theorem heapGet_append_self (h : List Student) (s : Student) :
    heapGet (h ++ [s]) h.length = s := by
  simp [heapGet, List.getElem?_concat_length]

theorem heapModify_length (h : List Student) (a : Nat) (f : Student → Student) :
    (heapModify h a f).length = h.length := by
  simp [heapModify]

theorem heapGet_heapModify_self (h : List Student) (a : Nat) (f : Student → Student)
    (ha : a < h.length) :
    heapGet (heapModify h a f) a = f (heapGet h a) := by
  simp [heapModify, heapGet, List.getElem?_set_self', ha]

theorem heapGet_heapModify_ne (h : List Student) (a b : Nat) (f : Student → Student)
    (hne : a ≠ b) :
    heapGet (heapModify h a f) b = heapGet h b := by
  simp [heapModify, heapGet, List.getElem?_set_ne hne]

theorem lookupReg_append_of_some (r r2 : List (Nat × Nat)) (k a : Nat)
    (h : lookupReg r k = some a) : lookupReg (r ++ r2) k = some a := by
  simp only [lookupReg, List.find?_append]
  simp only [lookupReg] at h
  cases hf : r.find? (fun p => p.1 == k) with
  | none => rw [hf] at h; simp at h
  | some p => rw [hf] at h; simpa using h

theorem lookupReg_append_of_none (r r2 : List (Nat × Nat)) (k : Nat)
    (h : lookupReg r k = none) : lookupReg (r ++ r2) k = lookupReg r2 k := by
  simp only [lookupReg, List.find?_append]
  simp only [lookupReg] at h
  cases hf : r.find? (fun p => p.1 == k) with
  | none => simp
  | some p => rw [hf] at h; simp at h

theorem lookupReg_singleton_self (k v : Nat) : lookupReg [(k, v)] k = some v := by
  simp [lookupReg]

theorem lookupReg_none_iff (r : List (Nat × Nat)) (k : Nat) :
    lookupReg r k = none ↔ k ∉ r.map Prod.fst := by
  simp only [lookupReg, Option.map_eq_none', List.find?_eq_none, List.mem_map,
    beq_iff_eq]
  constructor
  · rintro h ⟨p, hp, hpk⟩
    exact h p hp hpk
  · intro h p hp hpk
    exact h ⟨p, hp, hpk⟩

theorem lookupReg_mem_keys (r : List (Nat × Nat)) (k a : Nat)
    (h : lookupReg r k = some a) : k ∈ r.map Prod.fst := by
  by_contra hk
  rw [← lookupReg_none_iff] at hk
  rw [h] at hk
  exact Option.noConfusion hk

theorem add_course_user_id (s : Student) (c : Nat) :
    (add_course s c).user_id = s.user_id := by
  unfold add_course; split <;> rfl

theorem add_course_user_name (s : Student) (c : Nat) :
    (add_course s c).user_name = s.user_name := by
  unfold add_course; split <;> rfl

theorem add_course_user_uid (s : Student) (c : Nat) :
    (add_course s c).user_uid = s.user_uid := by
  unfold add_course; split <;> rfl

theorem add_course_token (s : Student) (c : Nat) :
    (add_course s c).token = s.token := by
  unfold add_course; split <;> rfl

theorem add_course_mem_self (s : Student) (c : Nat) :
    c ∈ (add_course s c).courses := by
  unfold add_course
  split
  · assumption
  · simp

theorem add_course_of_not_mem (s : Student) (c : Nat) (h : c ∉ s.courses) :
    (add_course s c).courses = s.courses ++ [c] := by
  simp [add_course, h]

theorem add_course_of_mem (s : Student) (c : Nat) (h : c ∈ s.courses) :
    add_course s c = s := by
  simp [add_course, h]

theorem add_course_idem (s : Student) (c : Nat) :
    add_course (add_course s c) c = add_course s c :=
  add_course_of_mem _ c (add_course_mem_self s c)

theorem add_course_count_ne (s : Student) (c d : Nat) (hne : d ≠ c) :
    (add_course s c).courses.count d = s.courses.count d := by
  unfold add_course
  split
  · rfl
  · simp [List.count_append, List.count_singleton, hne]

theorem add_course_count_self_of_zero (s : Student) (c : Nat)
    (h : s.courses.count c = 0) :
    (add_course s c).courses.count c = 1 := by
  have hnm : c ∉ s.courses := List.count_eq_zero.1 h
  rw [add_course_of_not_mem s c hnm]
  simp [List.count_append, h]

theorem extractScores_eq_filterMap (l : List (Option ℚ)) :
    extractScores l = l.filterMap id := by
  induction l with
  | nil => rfl
  | cons o t ih =>
      cases o with
      | none => simpa [extractScores, List.filter_cons] using ih
      | some v =>
          simp only [extractScores, List.filter_cons] at ih ⊢
          simp [ih]

/-- Claim C2, counterexample: two distinct Course objects (heap indices 0
and 1) with the same `course_id` 101; after `add_course` of both, the
student's `courses` list holds two entries whose `course_id` is 101, not
exactly one — the membership test of `add_course` is object identity, not
value-equality on `course_id`. -/
theorem C2_counterexample :
    let cheap : List Course := [⟨"CS101", 101, "t", [], []⟩, ⟨"CS101", 101, "t", [], []⟩]
    let s : Student := ⟨7, "A", "a", "t", [], []⟩
    ((add_course (add_course s 0) 1).courses.filter
      (fun a => (heapGetC cheap a).course_id == 101)).length = 2 := by decide

/-- Claim C2, amended: `Student.add_course` is an idempotent membership add
whose membership test is Python object identity (no `__eq__` on Course):
re-adding the same Course object is a no-op, but a second, distinct Course
object is appended even when its `course_id` is equal. -/
theorem C2_add_course_identity (s : Student) (c1 c2 : Nat) :
    add_course (add_course s c1) c1 = add_course s c1 ∧
    (c1 ∈ s.courses → add_course s c1 = s) ∧
    (c1 ≠ c2 → c1 ∉ s.courses → c2 ∉ s.courses →
      (add_course (add_course s c1) c2).courses = s.courses ++ [c1, c2]) := by
  refine ⟨add_course_idem s c1, add_course_of_mem s c1, ?_⟩
  intro hne h1 h2
  have hc : (add_course s c1).courses = s.courses ++ [c1] := add_course_of_not_mem s c1 h1
  have h2' : c2 ∉ (add_course s c1).courses := by
    rw [hc]
    simp [h2, Ne.symm hne]
  rw [add_course_of_not_mem _ c2 h2', hc]
  simp

/-- Claim C2, witness for the amended theorem. -/
theorem C2_add_course_identity_witness :
    add_course (add_course ⟨7, "A", "a", "t", [3], []⟩ 3) 3 = add_course ⟨7, "A", "a", "t", [3], []⟩ 3 ∧
    (add_course (add_course ⟨7, "A", "a", "t", [3], []⟩ 0) 1).courses = [3, 0, 1] := by
  have h := C2_add_course_identity ⟨7, "A", "a", "t", [3], []⟩ 0 1
  refine ⟨(C2_add_course_identity ⟨7, "A", "a", "t", [3], []⟩ 3 3).1, ?_⟩
  have := h.2.2 (by decide) (by decide) (by decide)
  exact this

/-- Claim C3: a successful `fetch_submissions` stores exactly the
`score_perc` values with `None`/missing entries dropped (never substituted
by zero), in order; and on the submission list [80, None, 60, 100] the
stored scores are [80, 60, 100] with summary statistics count 3, mean 80,
median 80, max 100, min 60. -/
theorem C3_drop_missing_scores :
    (∀ (a : Assessment) (resp : SubResp), resp.status = 200 →
      fetch_submissions a resp = .ok { a with scores := resp.body.filterMap id }) ∧
    fetch_submissions ⟨1, "A1", "HW", 1, "t", []⟩ ⟨200, [some 80, none, some 60, some 100]⟩ =
      .ok ⟨1, "A1", "HW", 1, "t", [80, 60, 100]⟩ ∧
    get_summary_statistics ⟨1, "A1", "HW", 1, "t", []⟩
        ⟨200, [some 80, none, some 60, some 100]⟩ =
      .ok ⟨3, 80, 80, 100, 60⟩ := by
  refine ⟨?_, ?_, ?_⟩
  · intro a resp h
    rw [fetch_submissions, if_pos h, extractScores_eq_filterMap]
  · decide
  · simp only [get_summary_statistics, fetch_submissions, extractScores, sumScores, medianScore,
      sortScores, insertSorted, maxScore, minScore]
    norm_num [insertSorted]

/-- Claim C3, witness for the universally quantified first conjunct. -/
theorem C3_drop_missing_scores_witness :
    fetch_submissions ⟨2, "A2", "LAB", 1, "t", [5]⟩ ⟨200, [none, some 42]⟩ =
      .ok { (⟨2, "A2", "LAB", 1, "t", [5]⟩ : Assessment) with
              scores := ([none, some 42] : List (Option ℚ)).filterMap id } :=
  C3_drop_missing_scores.1 ⟨2, "A2", "LAB", 1, "t", [5]⟩ ⟨200, [none, some 42]⟩ (by decide)

/-- Claim C4, counterexample: the legacy variant
(prairielearn_classes.py lines 199-221) does not fail on an empty fetched
submission list — with `submissions_fetched` set and `scores` empty it
returns a record with `num_submissions = 0` and `None` statistics, so the
one-policy-at-every-call-site part of the claim is false on the code. -/
theorem C4_counterexample :
    PC.get_summary_statistics ⟨1, "A1", "HW", 1, true, []⟩ =
      some ⟨0, none, none, none, none⟩ := by decide

/-- Claim C4, amended: on an empty (lazily fetched) submission list the
pl_api.py variant of `get_summary_statistics` fails with the NoData error,
the assessment.py variant fails too but with an unguarded
`ZeroDivisionError`, while the prairielearn_classes.py variant silently
returns a zero/None-filled record instead of failing. -/
theorem C4_empty_scores_policy (a : Assessment) (resp : SubResp) (pa : PC.Assessment)
    (h : a.scores = []) (h200 : resp.status = 200) (hbody : extractScores resp.body = [])
    (hf : pa.submissions_fetched = true) (hs : pa.scores = []) :
    get_summary_statistics_api a resp = .error .noData ∧
    get_summary_statistics a resp = .error .zeroDivisionError ∧
    PC.get_summary_statistics pa = some ⟨0, none, none, none, none⟩ := by
  have hfetch : fetch_submissions a resp = .ok { a with scores := extractScores resp.body } := by
    rw [fetch_submissions, if_pos h200]
  refine ⟨?_, ?_, ?_⟩
  · rw [get_summary_statistics_api, if_pos (by simp [h]), hfetch]
    simp [hbody]
  · rw [get_summary_statistics, if_pos (by simp [h]), hfetch]
    simp [hbody]
  · rw [PC.get_summary_statistics, if_neg (by simp [hf])]
    simp [hs]

/-- Claim C4, witness. -/
theorem C4_empty_scores_policy_witness :
    get_summary_statistics_api ⟨1, "A1", "HW", 1, "t", []⟩ ⟨200, [none]⟩ = .error .noData ∧
    get_summary_statistics ⟨1, "A1", "HW", 1, "t", []⟩ ⟨200, [none]⟩ = .error .zeroDivisionError ∧
    PC.get_summary_statistics ⟨1, "A1", "HW", 1, true, []⟩ = some ⟨0, none, none, none, none⟩ :=
  C4_empty_scores_policy ⟨1, "A1", "HW", 1, "t", []⟩ ⟨200, [none]⟩ ⟨1, "A1", "HW", 1, true, []⟩
    (by decide) (by decide) (by decide) (by decide) (by decide)

theorem collectPlotData_no_filter (assessments : List Assessment)
    (env : Nat → List (Option ℚ)) :
    collectPlotData assessments env none = ([], []) := by
  unfold collectPlotData
  induction assessments with
  | nil => rfl
  | cons a t ih =>
      simp only [List.foldl_cons, truthyOpt, Bool.false_and, Bool.false_or,
        Bool.if_false_left]
      exact ih

/-- Claim C5: with the label filter omitted (None), the collection loop of
`Course.plot_boxplot` / `Course.plot_histogram` selects no assessment — no
`fetch_submissions` is invoked, the collected dataset is empty, and both
operations report "no data available" instead of charting all
assessments. -/
theorem C5_no_filter_selects_nothing (assessments : List Assessment)
    (env : Nat → List (Option ℚ)) (bins : Nat) :
    collectPlotData assessments env none = ([], []) ∧
    plot_boxplot assessments env none = (.noData, []) ∧
    plot_histogram assessments env none bins = (.noData, []) := by
  have h := collectPlotData_no_filter assessments env
  refine ⟨h, ?_, ?_⟩
  · rw [plot_boxplot, h]
    rfl
  · rw [plot_histogram, h]
    rfl

/-- Claim C7: on a non-200 transport status, `Course.fetch_students` raises
the fetch error carrying the status, and the course's `students` list, the
Student heap and the shared registry (when supplied) are returned exactly as
they were — no partial roster is retained. -/
theorem C7_fetch_failure_all_or_nothing (cAddr : Nat) (c : Course) (heap : List Student)
    (greg : Option (List (Nat × Nat))) (resp : GradebookResp) (h : resp.status ≠ 200) :
    fetch_students cAddr c heap greg resp =
      ⟨.error (.fetchFailed resp.status), c, heap, greg⟩ := by
  rw [fetch_students.eq_def, if_neg h]

/-- Claim C7, witness: a 404 roster response leaves a nonempty prior state
untouched. -/
theorem C7_fetch_failure_all_or_nothing_witness :
    fetch_students 0 ⟨"CS101", 1001, "t", [5], []⟩ [⟨7, "A", "a", "t", [3], []⟩]
        (some [(7, 0)]) ⟨404, [⟨8, "B", "b"⟩]⟩ =
      ⟨.error (.fetchFailed 404), ⟨"CS101", 1001, "t", [5], []⟩,
        [⟨7, "A", "a", "t", [3], []⟩], some [(7, 0)]⟩ :=
  C7_fetch_failure_all_or_nothing 0 ⟨"CS101", 1001, "t", [5], []⟩ [⟨7, "A", "a", "t", [3], []⟩]
    (some [(7, 0)]) ⟨404, [⟨8, "B", "b"⟩]⟩ (by decide)

/-- Claim C8, counterexample: supplying exactly one selector as an
explicitly supplied (empty) collection — `user_names = []`, `cwls` absent —
still raises InvalidArgument, because the source validates by Python
truthiness, under which an empty list counts as not given. -/
theorem C8_counterexample :
    find_students [] (some []) none = .error .invalidArgument ∧
    (some ([] : List String)).isSome = true ∧
    (none : Option (List String)).isSome = false := by decide

/-- Claim C8, amended: `find_students` fails with InvalidArgument exactly
when both selectors are truthy (supplied and nonempty) or both are falsy
(absent or empty) — a supplied empty collection counts as not given — and
InvalidArgument is the only error it ever raises. -/
theorem C8_truthiness_validation (students : List Student)
    (user_names cwls : Option (List String)) :
    (find_students students user_names cwls = .error .invalidArgument ↔
      ((truthyOpt user_names && truthyOpt cwls)
        || (!truthyOpt user_names && !truthyOpt cwls)) = true) ∧
    (∀ e, find_students students user_names cwls = .error e → e = .invalidArgument) := by
  unfold find_students
  by_cases h : ((truthyOpt user_names && truthyOpt cwls)
      || (!truthyOpt user_names && !truthyOpt cwls)) = true
  · rw [if_pos h]
    refine ⟨⟨fun _ => h, fun _ => rfl⟩, fun e he => ?_⟩
    injection he with h2
    exact h2.symm
  · rw [if_neg h]
    refine ⟨⟨fun hc => ?_, fun hc => absurd hc h⟩, fun e he => ?_⟩
    · simp at hc
    · simp at he

/-- Claim C8, witness for the amended theorem: one truthy selector does not
raise, and two truthy selectors raise InvalidArgument. -/
theorem C8_truthiness_validation_witness :
    ¬ (find_students [] (some ["Alice"]) none = .error .invalidArgument) ∧
    find_students [] (some ["Alice"]) (some ["bob"]) = .error .invalidArgument := by
  constructor
  · intro hc
    exact absurd ((C8_truthiness_validation [] (some ["Alice"]) none).1.1 hc) (by decide)
  · exact (C8_truthiness_validation [] (some ["Alice"]) (some ["bob"])).1.2 (by decide)

/-- Claim C9: under a queried name's key, `find_students` by names yields
one of exactly three shapes decided by how many registered students carry
that display name — no match gives the null entry, one match gives that
Student, several matches give the full match list — and two students named
"Alice" produce a two-element result under the key "Alice". -/
theorem C9_match_trichotomy (students : List Student) (name : String) :
    (students.filter (fun s => s.user_name == name) = [] →
      find_by_name students name = .notFound) ∧
    (∀ m, students.filter (fun s => s.user_name == name) = [m] →
      find_by_name students name = .one m) ∧
    (2 ≤ (students.filter (fun s => s.user_name == name)).length →
      find_by_name students name = .many (students.filter (fun s => s.user_name == name))) ∧
    find_students [⟨1, "Alice", "a1", "t", [], []⟩, ⟨2, "Alice", "a2", "t", [], []⟩]
        (some ["Alice"]) none =
      .ok [("Alice", .many [⟨1, "Alice", "a1", "t", [], []⟩, ⟨2, "Alice", "a2", "t", [], []⟩])] := by
  refine ⟨?_, ?_, ?_, by decide⟩
  · intro h
    rw [find_by_name]
    simp [h]
  · intro m h
    rw [find_by_name]
    simp [h]
  · intro h
    rw [find_by_name]
    rw [if_neg (by omega), if_pos (by omega)]

/-- Claim C9, witness: the three shapes at concrete registries. -/
theorem C9_match_trichotomy_witness :
    find_by_name [⟨1, "Bob", "b", "t", [], []⟩] "Alice" = .notFound ∧
    find_by_name [⟨1, "Alice", "a1", "t", [], []⟩] "Alice" = .one ⟨1, "Alice", "a1", "t", [], []⟩ ∧
    find_by_name [⟨1, "Alice", "a1", "t", [], []⟩, ⟨2, "Alice", "a2", "t", [], []⟩] "Alice" =
      .many [⟨1, "Alice", "a1", "t", [], []⟩, ⟨2, "Alice", "a2", "t", [], []⟩] := by
  refine ⟨(C9_match_trichotomy [⟨1, "Bob", "b", "t", [], []⟩] "Alice").1 (by decide),
    (C9_match_trichotomy [⟨1, "Alice", "a1", "t", [], []⟩] "Alice").2.1
      ⟨1, "Alice", "a1", "t", [], []⟩ (by decide), ?_⟩
  have h := (C9_match_trichotomy
    [⟨1, "Alice", "a1", "t", [], []⟩, ⟨2, "Alice", "a2", "t", [], []⟩] "Alice").2.2.1 (by decide)
  simpa using h

theorem heapModify_append_self (h : List Student) (m : Student) (f : Student → Student) :
    heapModify (h ++ [m]) h.length f = h ++ [f m] := by
  unfold heapModify
  rw [heapGet_append_self]
  induction h with
  | nil => rfl
  | cons x t ih => simp [List.set, ih]

theorem lookupReg_singleton_ne (k v q : Nat) (h : k ≠ q) :
    lookupReg [(k, v)] q = none := by
  simp [lookupReg, h]

theorem process_row_hit (cAddr : Nat) (tok : String) (st : FetchSt) (row : Row) (a : Nat)
    (h : lookupReg st.reg row.user_id = some a) :
    process_row cAddr tok st row =
      ⟨heapModify st.heap a (fun s => add_course s cAddr), st.reg, st.students ++ [a]⟩ := by
  unfold process_row
  rw [h]

theorem process_row_miss (cAddr : Nat) (tok : String) (st : FetchSt) (row : Row)
    (h : lookupReg st.reg row.user_id = none) :
    process_row cAddr tok st row =
      ⟨st.heap ++ [add_course (mkStudent row tok) cAddr],
       st.reg ++ [(row.user_id, st.heap.length)],
       st.students ++ [st.heap.length]⟩ := by
  unfold process_row
  rw [h]
  simp only [heapModify_append_self]

theorem process_row_heap_le (cAddr : Nat) (tok : String) (st : FetchSt) (row : Row) :
    st.heap.length ≤ (process_row cAddr tok st row).heap.length := by
  cases h : lookupReg st.reg row.user_id with
  | none => rw [process_row_miss cAddr tok st row h]; simp
  | some a => rw [process_row_hit cAddr tok st row a h]; simp [heapModify_length]

theorem process_row_reg_stable (cAddr : Nat) (tok : String) (st : FetchSt) (row : Row)
    (k a : Nat) (h : lookupReg st.reg k = some a) :
    lookupReg (process_row cAddr tok st row).reg k = some a := by
  cases hl : lookupReg st.reg row.user_id with
  | none => rw [process_row_miss cAddr tok st row hl]; exact lookupReg_append_of_some _ _ _ _ h
  | some b => rw [process_row_hit cAddr tok st row b hl]; exact h

theorem process_row_old_heap (cAddr : Nat) (tok : String) (st : FetchSt) (row : Row)
    (a : Nat) (ha : a < st.heap.length) :
    heapGet (process_row cAddr tok st row).heap a = heapGet st.heap a ∨
    heapGet (process_row cAddr tok st row).heap a = add_course (heapGet st.heap a) cAddr := by
  cases hl : lookupReg st.reg row.user_id with
  | none =>
      rw [process_row_miss cAddr tok st row hl]
      left
      exact heapGet_append_lt _ _ _ ha
  | some b =>
      rw [process_row_hit cAddr tok st row b hl]
      dsimp only
      by_cases hab : b = a
      · subst hab
        right
        exact heapGet_heapModify_self st.heap b (fun s => add_course s cAddr) ha
      · left
        exact heapGet_heapModify_ne st.heap b a (fun s => add_course s cAddr) hab

theorem process_row_students (cAddr : Nat) (tok : String) (st : FetchSt) (row : Row) :
    ∃ t, (process_row cAddr tok st row).students = st.students ++ t := by
  cases hl : lookupReg st.reg row.user_id with
  | none => rw [process_row_miss cAddr tok st row hl]; exact ⟨_, rfl⟩
  | some b => rw [process_row_hit cAddr tok st row b hl]; exact ⟨_, rfl⟩

theorem process_row_wf (cAddr : Nat) (tok : String) (st : FetchSt) (row : Row)
    (h : WF st.heap st.reg) :
    WF (process_row cAddr tok st row).heap (process_row cAddr tok st row).reg := by
  obtain ⟨hkey, hnd⟩ := h
  cases hl : lookupReg st.reg row.user_id with
  | none =>
      rw [process_row_miss cAddr tok st row hl]
      constructor
      · intro p hp
        rcases List.mem_append.1 hp with hp | hp
        · obtain ⟨hlt, hid⟩ := hkey p hp
          refine ⟨by simp; omega, ?_⟩
          rw [heapGet_append_lt _ _ _ hlt]
          exact hid
        · have hp' : p = (row.user_id, st.heap.length) := by simpa using hp
          subst hp'
          refine ⟨by simp, ?_⟩
          rw [heapGet_append_self]
          simp [add_course_user_id, mkStudent]
      · simp only [List.map_append]
        rw [List.nodup_append]
        refine ⟨hnd, by simp, ?_⟩
        intro k hk
        simp only [List.map_cons, List.map_nil, List.mem_singleton]
        intro hk2
        subst hk2
        exact absurd hk ((lookupReg_none_iff st.reg row.user_id).1 hl)
  | some b =>
      rw [process_row_hit cAddr tok st row b hl]
      refine ⟨?_, hnd⟩
      intro p hp
      obtain ⟨hlt, hid⟩ := hkey p hp
      refine ⟨by rw [heapModify_length]; exact hlt, ?_⟩
      by_cases hb : b = p.2
      · subst hb
        rw [heapGet_heapModify_self _ _ _ hlt, add_course_user_id]
        exact hid
      · rw [heapGet_heapModify_ne _ _ _ _ hb]
        exact hid

theorem runRows_nil (cAddr : Nat) (tok : String) (st : FetchSt) :
    runRows cAddr tok st [] = st := rfl

theorem runRows_cons (cAddr : Nat) (tok : String) (st : FetchSt) (r : Row) (rows : List Row) :
    runRows cAddr tok st (r :: rows) = runRows cAddr tok (process_row cAddr tok st r) rows := rfl

theorem runRows_heap_le (cAddr : Nat) (tok : String) (st : FetchSt) (rows : List Row) :
    st.heap.length ≤ (runRows cAddr tok st rows).heap.length := by
  induction rows generalizing st with
  | nil => exact le_refl _
  | cons r rows ih =>
      rw [runRows_cons]
      exact le_trans (process_row_heap_le cAddr tok st r) (ih _)

theorem runRows_reg_stable (cAddr : Nat) (tok : String) (st : FetchSt) (rows : List Row)
    (k a : Nat) (h : lookupReg st.reg k = some a) :
    lookupReg (runRows cAddr tok st rows).reg k = some a := by
  induction rows generalizing st with
  | nil => exact h
  | cons r rows ih =>
      rw [runRows_cons]
      exact ih _ (process_row_reg_stable cAddr tok st r k a h)

theorem runRows_wf (cAddr : Nat) (tok : String) (st : FetchSt) (rows : List Row)
    (h : WF st.heap st.reg) :
    WF (runRows cAddr tok st rows).heap (runRows cAddr tok st rows).reg := by
  induction rows generalizing st with
  | nil => exact h
  | cons r rows ih =>
      rw [runRows_cons]
      exact ih _ (process_row_wf cAddr tok st r h)

theorem runRows_students_mono (cAddr : Nat) (tok : String) (st : FetchSt) (rows : List Row) :
    ∃ t, (runRows cAddr tok st rows).students = st.students ++ t := by
  induction rows generalizing st with
  | nil => exact ⟨[], by simp [runRows_nil]⟩
  | cons r rows ih =>
      rw [runRows_cons]
      obtain ⟨t1, h1⟩ := process_row_students cAddr tok st r
      obtain ⟨t2, h2⟩ := ih (process_row cAddr tok st r)
      exact ⟨t1 ++ t2, by rw [h2, h1, List.append_assoc]⟩

theorem runRows_old_heap (cAddr : Nat) (tok : String) (st : FetchSt) (rows : List Row)
    (a : Nat) (ha : a < st.heap.length) :
    heapGet (runRows cAddr tok st rows).heap a = heapGet st.heap a ∨
    heapGet (runRows cAddr tok st rows).heap a = add_course (heapGet st.heap a) cAddr := by
  induction rows generalizing st with
  | nil => left; rfl
  | cons r rows ih =>
      rw [runRows_cons]
      have ha1 : a < (process_row cAddr tok st r).heap.length :=
        lt_of_lt_of_le ha (process_row_heap_le cAddr tok st r)
      rcases ih (process_row cAddr tok st r) ha1 with h2 | h2 <;>
        rcases process_row_old_heap cAddr tok st r a ha with h1 | h1
      · left; rw [h2, h1]
      · right; rw [h2, h1]
      · right; rw [h2, h1]
      · right; rw [h2, h1, add_course_idem]

theorem process_row_count_pres (cAddr : Nat) (tok : String) (st : FetchSt) (row : Row)
    (x a : Nat) (hx : x ≠ cAddr)
    (ha : a < (process_row cAddr tok st row).heap.length) :
    (heapGet (process_row cAddr tok st row).heap a).courses.count x =
      if a < st.heap.length then (heapGet st.heap a).courses.count x else 0 := by
  cases hl : lookupReg st.reg row.user_id with
  | some b =>
      rw [process_row_hit cAddr tok st row b hl] at ha ⊢
      dsimp only at ha ⊢
      rw [heapModify_length] at ha
      rw [if_pos ha]
      by_cases hab : b = a
      · subst hab
        rw [heapGet_heapModify_self st.heap b (fun s => add_course s cAddr) ha]
        exact add_course_count_ne _ _ _ hx
      · rw [heapGet_heapModify_ne st.heap b a (fun s => add_course s cAddr) hab]
  | none =>
      rw [process_row_miss cAddr tok st row hl] at ha ⊢
      dsimp only at ha ⊢
      by_cases halt : a < st.heap.length
      · rw [if_pos halt, heapGet_append_lt _ _ _ halt]
      · rw [if_neg halt]
        have ha' : a = st.heap.length := by
          simp only [List.length_append, List.length_cons, List.length_nil] at ha
          omega
        subst ha'
        rw [heapGet_append_self]
        rw [add_course_of_not_mem _ _ (by simp [mkStudent])]
        simp [mkStudent, hx]

theorem runRows_count_pres (cAddr : Nat) (tok : String) (st : FetchSt) (rows : List Row)
    (x a : Nat) (hx : x ≠ cAddr)
    (ha : a < (runRows cAddr tok st rows).heap.length) :
    (heapGet (runRows cAddr tok st rows).heap a).courses.count x =
      if a < st.heap.length then (heapGet st.heap a).courses.count x else 0 := by
  induction rows generalizing st with
  | nil => rw [runRows_nil] at ha ⊢; rw [if_pos ha]
  | cons r rows ih =>
      rw [runRows_cons] at ha ⊢
      rw [ih (process_row cAddr tok st r) ha]
      by_cases h1 : a < (process_row cAddr tok st r).heap.length
      · rw [if_pos h1, process_row_count_pres cAddr tok st r x a hx h1]
      · have h2 : ¬ a < st.heap.length := fun hc =>
          h1 (lt_of_lt_of_le hc (process_row_heap_le cAddr tok st r))
        rw [if_neg h1, if_neg h2]

theorem lookupReg_mem_pair (r : List (Nat × Nat)) (k a : Nat)
    (h : lookupReg r k = some a) : (k, a) ∈ r := by
  simp only [lookupReg] at h
  cases hf : r.find? (fun p => p.1 == k) with
  | none => rw [hf] at h; simp at h
  | some q =>
      rw [hf] at h
      have hm := List.mem_of_find?_eq_some hf
      have hq := List.find?_some hf
      obtain ⟨q1, q2⟩ := q
      simp only [beq_iff_eq] at hq
      simp only [Option.map_some', Option.some.injEq] at h
      subst hq
      subst h
      exact hm

theorem runRows_uid_registered (cAddr : Nat) (tok : String) (st : FetchSt) (rows : List Row)
    (uid a : Nat) (hWF : WF st.heap st.reg)
    (hl : lookupReg st.reg uid = some a) (hu : uid ∈ rows.map Row.user_id) :
    lookupReg (runRows cAddr tok st rows).reg uid = some a ∧
    a ∈ (runRows cAddr tok st rows).students ∧
    heapGet (runRows cAddr tok st rows).heap a =
      add_course (heapGet st.heap a) cAddr := by
  induction rows generalizing st with
  | nil =>
      rw [List.map_nil] at hu
      exact absurd hu (List.not_mem_nil uid)
  | cons r rows ih =>
      have ha_lt : a < st.heap.length := (hWF.1 (uid, a) (lookupReg_mem_pair st.reg uid a hl)).1
      rw [runRows_cons]
      by_cases heq : r.user_id = uid
      · have hl' : lookupReg st.reg r.user_id = some a := by rw [heq]; exact hl
        have hstep := process_row_hit cAddr tok st r a hl'
        have hreg1 : (process_row cAddr tok st r).reg = st.reg := by rw [hstep]
        have hstud1 : a ∈ (process_row cAddr tok st r).students := by rw [hstep]; simp
        have hheap1 : heapGet (process_row cAddr tok st r).heap a =
            add_course (heapGet st.heap a) cAddr := by
          rw [hstep]
          exact heapGet_heapModify_self st.heap a (fun s => add_course s cAddr) ha_lt
        have ha1 : a < (process_row cAddr tok st r).heap.length :=
          lt_of_lt_of_le ha_lt (process_row_heap_le cAddr tok st r)
        refine ⟨?_, ?_, ?_⟩
        · exact runRows_reg_stable cAddr tok _ rows uid a (by rw [hreg1]; exact hl)
        · obtain ⟨t, ht⟩ := runRows_students_mono cAddr tok (process_row cAddr tok st r) rows
          rw [ht]
          exact List.mem_append.2 (Or.inl hstud1)
        · rcases runRows_old_heap cAddr tok _ rows a ha1 with h2 | h2
          · rw [h2, hheap1]
          · rw [h2, hheap1, add_course_idem]
      · have hl1 : lookupReg (process_row cAddr tok st r).reg uid = some a :=
          process_row_reg_stable cAddr tok st r uid a hl
        have hWF1 := process_row_wf cAddr tok st r hWF
        have hu1 : uid ∈ rows.map Row.user_id := by
          rw [List.map_cons] at hu
          rcases List.mem_cons.1 hu with h | h
          · exact absurd h.symm heq
          · exact h
        have ha1 : a < (process_row cAddr tok st r).heap.length :=
          lt_of_lt_of_le ha_lt (process_row_heap_le cAddr tok st r)
        obtain ⟨hres1, hres2, hres3⟩ := ih (process_row cAddr tok st r) hWF1 hl1 hu1
        refine ⟨hres1, hres2, ?_⟩
        rcases process_row_old_heap cAddr tok st r a ha_lt with h1 | h1
        · rw [hres3, h1]
        · rw [hres3, h1, add_course_idem]

theorem runRows_uid_new (cAddr : Nat) (tok : String) (st : FetchSt) (rows : List Row)
    (uid : Nat) (hWF : WF st.heap st.reg)
    (hl : lookupReg st.reg uid = none) (hu : uid ∈ rows.map Row.user_id) :
    ∃ a, st.heap.length ≤ a ∧ a < (runRows cAddr tok st rows).heap.length ∧
      lookupReg (runRows cAddr tok st rows).reg uid = some a ∧
      a ∈ (runRows cAddr tok st rows).students ∧
      (heapGet (runRows cAddr tok st rows).heap a).courses.count cAddr = 1 := by
  induction rows generalizing st with
  | nil =>
      rw [List.map_nil] at hu
      exact absurd hu (List.not_mem_nil uid)
  | cons r rows ih =>
      rw [runRows_cons]
      by_cases heq : r.user_id = uid
      · have hl' : lookupReg st.reg r.user_id = none := by rw [heq]; exact hl
        have hstep := process_row_miss cAddr tok st r hl'
        set a := st.heap.length with ha_def
        have hv : heapGet (process_row cAddr tok st r).heap a =
            add_course (mkStudent r tok) cAddr := by
          rw [hstep]
          exact heapGet_append_self st.heap (add_course (mkStudent r tok) cAddr)
        have hcount : (heapGet (process_row cAddr tok st r).heap a).courses.count cAddr = 1 := by
          rw [hv]
          exact add_course_count_self_of_zero _ _ (by simp [mkStudent])
        have hl1 : lookupReg (process_row cAddr tok st r).reg uid = some a := by
          rw [hstep]
          dsimp only
          rw [lookupReg_append_of_none st.reg _ uid hl, heq]
          exact lookupReg_singleton_self uid a
        have hstud1 : a ∈ (process_row cAddr tok st r).students := by rw [hstep]; simp
        have ha1 : a < (process_row cAddr tok st r).heap.length := by
          rw [hstep]
          simp [ha_def]
        refine ⟨a, le_refl a, ?_, ?_, ?_, ?_⟩
        · exact lt_of_lt_of_le ha1 (runRows_heap_le cAddr tok _ rows)
        · exact runRows_reg_stable cAddr tok _ rows uid a hl1
        · obtain ⟨t, ht⟩ := runRows_students_mono cAddr tok (process_row cAddr tok st r) rows
          rw [ht]
          exact List.mem_append.2 (Or.inl hstud1)
        · rcases runRows_old_heap cAddr tok _ rows a ha1 with h2 | h2
          · rw [h2]; exact hcount
          · rw [h2]
            have hmem : cAddr ∈ (heapGet (process_row cAddr tok st r).heap a).courses :=
              List.count_pos_iff.1 (by rw [hcount]; exact Nat.one_pos)
            rw [add_course_of_mem _ _ hmem]
            exact hcount
      · have hl1 : lookupReg (process_row cAddr tok st r).reg uid = none := by
          cases hlr : lookupReg st.reg r.user_id with
          | some b =>
              rw [process_row_hit cAddr tok st r b hlr]
              exact hl
          | none =>
              rw [process_row_miss cAddr tok st r hlr]
              dsimp only
              rw [lookupReg_append_of_none st.reg _ uid hl]
              exact lookupReg_singleton_ne r.user_id st.heap.length uid heq
        have hWF1 := process_row_wf cAddr tok st r hWF
        have hu1 : uid ∈ rows.map Row.user_id := by
          rw [List.map_cons] at hu
          rcases List.mem_cons.1 hu with h | h
          · exact absurd h.symm heq
          · exact h
        obtain ⟨a, ha0, ha1, ha2, ha3, ha4⟩ := ih (process_row cAddr tok st r) hWF1 hl1 hu1
        exact ⟨a, le_trans (process_row_heap_le cAddr tok st r) ha0, ha1, ha2, ha3, ha4⟩

/-- Claim C10: when the shared registry already holds a Student for a roster
row's `user_id`, `Course.fetch_students` leaves that Student's `user_name`,
`user_uid` and `token` (and `user_id`) unchanged — the metadata of the new
roster row is discarded, so the values captured at the first fetch win even
if a later roster reports different strings for the same id. -/
theorem C10_first_fetch_metadata_wins (cAddr : Nat) (c : Course) (heap : List Student)
    (reg : List (Nat × Nat)) (rows : List Row) (uid a : Nat)
    (hWF : WF heap reg) (hl : lookupReg reg uid = some a) :
    (heapGet (fetch_students cAddr c heap (some reg) ⟨200, rows⟩).heap a).user_name =
      (heapGet heap a).user_name ∧
    (heapGet (fetch_students cAddr c heap (some reg) ⟨200, rows⟩).heap a).user_uid =
      (heapGet heap a).user_uid ∧
    (heapGet (fetch_students cAddr c heap (some reg) ⟨200, rows⟩).heap a).token =
      (heapGet heap a).token ∧
    (heapGet (fetch_students cAddr c heap (some reg) ⟨200, rows⟩).heap a).user_id =
      (heapGet heap a).user_id := by
  have hre : (fetch_students cAddr c heap (some reg) ⟨200, rows⟩).heap =
      (runRows cAddr c.token ⟨heap, reg, c.students⟩ rows).heap := rfl
  rw [hre]
  have ha_lt : a < heap.length := (hWF.1 (uid, a) (lookupReg_mem_pair reg uid a hl)).1
  rcases runRows_old_heap cAddr c.token ⟨heap, reg, c.students⟩ rows a ha_lt with h | h
  · rw [h]
    exact ⟨rfl, rfl, rfl, rfl⟩
  · rw [h]
    exact ⟨add_course_user_name _ _, add_course_user_uid _ _,
      add_course_token _ _, add_course_user_id _ _⟩

/-- Claim C10, witness: a second course's roster reports user 7 as "B"/"b",
but the registered Student keeps "A"/"a" and its original token. -/
theorem C10_first_fetch_metadata_wins_witness :
    (heapGet (fetch_students 1 ⟨"MATH201", 1002, "tok", [], []⟩
        [⟨7, "A", "a", "t", [], []⟩] (some [(7, 0)]) ⟨200, [⟨7, "B", "b"⟩]⟩).heap 0).user_name
      = "A" ∧
    (heapGet (fetch_students 1 ⟨"MATH201", 1002, "tok", [], []⟩
        [⟨7, "A", "a", "t", [], []⟩] (some [(7, 0)]) ⟨200, [⟨7, "B", "b"⟩]⟩).heap 0).user_uid
      = "a" ∧
    (heapGet (fetch_students 1 ⟨"MATH201", 1002, "tok", [], []⟩
        [⟨7, "A", "a", "t", [], []⟩] (some [(7, 0)]) ⟨200, [⟨7, "B", "b"⟩]⟩).heap 0).token
      = "t" := by
  obtain ⟨h1, h2, h3, h4⟩ := C10_first_fetch_metadata_wins 1 ⟨"MATH201", 1002, "tok", [], []⟩
    [⟨7, "A", "a", "t", [], []⟩] [(7, 0)] [⟨7, "B", "b"⟩] 7 0 (by unfold WF; decide) (by decide)
  refine ⟨?_, ?_, ?_⟩
  · rw [h1]; rfl
  · rw [h2]; rfl
  · rw [h3]; rfl

theorem runPassG_nil (tok : String) (g : GState) : runPassG tok g [] = g := rfl

theorem runPassG_cons (tok : String) (g : GState) (s : PassStep) (steps : List PassStep) :
    runPassG tok g (s :: steps) =
      runPassG tok ⟨(runRows s.cAddr tok ⟨g.heap, g.reg, []⟩ s.rows).heap,
        (runRows s.cAddr tok ⟨g.heap, g.reg, []⟩ s.rows).reg⟩ steps := rfl

theorem runPassG_heap_le (tok : String) (g : GState) (steps : List PassStep) :
    g.heap.length ≤ (runPassG tok g steps).heap.length := by
  induction steps generalizing g with
  | nil => exact le_refl _
  | cons s steps ih =>
      rw [runPassG_cons]
      exact le_trans (runRows_heap_le s.cAddr tok ⟨g.heap, g.reg, []⟩ s.rows)
        (ih ⟨(runRows s.cAddr tok ⟨g.heap, g.reg, []⟩ s.rows).heap,
          (runRows s.cAddr tok ⟨g.heap, g.reg, []⟩ s.rows).reg⟩)

theorem runPassG_reg_stable (tok : String) (g : GState) (steps : List PassStep)
    (k a : Nat) (h : lookupReg g.reg k = some a) :
    lookupReg (runPassG tok g steps).reg k = some a := by
  induction steps generalizing g with
  | nil => exact h
  | cons s steps ih =>
      rw [runPassG_cons]
      exact ih _ (runRows_reg_stable s.cAddr tok ⟨g.heap, g.reg, []⟩ s.rows k a h)

theorem runPassG_wf (tok : String) (g : GState) (steps : List PassStep)
    (h : WF g.heap g.reg) :
    WF (runPassG tok g steps).heap (runPassG tok g steps).reg := by
  induction steps generalizing g with
  | nil => exact h
  | cons s steps ih =>
      rw [runPassG_cons]
      exact ih _ (runRows_wf s.cAddr tok ⟨g.heap, g.reg, []⟩ s.rows h)

theorem runPassG_count_pres (tok : String) (g : GState) (steps : List PassStep)
    (x a : Nat) (hx : x ∉ steps.map PassStep.cAddr)
    (ha : a < (runPassG tok g steps).heap.length) :
    (heapGet (runPassG tok g steps).heap a).courses.count x =
      if a < g.heap.length then (heapGet g.heap a).courses.count x else 0 := by
  induction steps generalizing g with
  | nil => rw [runPassG_nil] at ha ⊢; rw [if_pos ha]
  | cons s steps ih =>
      rw [List.map_cons] at hx
      have hx1 : x ≠ s.cAddr := fun hc => hx (by rw [hc]; exact List.mem_cons_self _ _)
      have hx2 : x ∉ steps.map PassStep.cAddr := fun hc => hx (List.mem_cons_of_mem _ hc)
      rw [runPassG_cons] at ha ⊢
      rw [ih _ hx2 ha]
      by_cases h1 : a < (runRows s.cAddr tok ⟨g.heap, g.reg, []⟩ s.rows).heap.length
      · rw [if_pos h1,
          runRows_count_pres s.cAddr tok ⟨g.heap, g.reg, []⟩ s.rows x a hx1 h1]
      · have h2 : ¬ a < g.heap.length := fun hc =>
          h1 (lt_of_lt_of_le hc (runRows_heap_le s.cAddr tok ⟨g.heap, g.reg, []⟩ s.rows))
        rw [if_neg h1, if_neg h2]

theorem runPassG_fresh (tok : String) (g : GState) (steps : List PassStep)
    (x : Nat) (hx : x ∉ steps.map PassStep.cAddr) (hg : freshC x g.heap) :
    freshC x (runPassG tok g steps).heap := by
  intro a ha
  rw [runPassG_count_pres tok g steps x a hx ha]
  by_cases h1 : a < g.heap.length
  · rw [if_pos h1]; exact hg a h1
  · rw [if_neg h1]

theorem runRows_first_course (c1addr c2addr : Nat) (tok : String) (g : GState)
    (rows1 : List Row) (uid : Nat) (r1 : FetchSt)
    (hr1 : r1 = runRows c1addr tok ⟨g.heap, g.reg, []⟩ rows1)
    (hne : c1addr ≠ c2addr) (hWF : WF g.heap g.reg)
    (hf1 : freshC c1addr g.heap) (hf2 : freshC c2addr g.heap)
    (hu : uid ∈ rows1.map Row.user_id) :
    ∃ a, a < r1.heap.length ∧ lookupReg r1.reg uid = some a ∧ a ∈ r1.students ∧
      (heapGet r1.heap a).courses.count c1addr = 1 ∧
      (heapGet r1.heap a).courses.count c2addr = 0 := by
  subst hr1
  cases hl : lookupReg g.reg uid with
  | some a =>
      have hmem := lookupReg_mem_pair g.reg uid a hl
      have ha_lt : a < g.heap.length := (hWF.1 (uid, a) hmem).1
      obtain ⟨h1, h2, h3⟩ :=
        runRows_uid_registered c1addr tok ⟨g.heap, g.reg, []⟩ rows1 uid a hWF hl hu
      refine ⟨a,
        lt_of_lt_of_le ha_lt (runRows_heap_le c1addr tok ⟨g.heap, g.reg, []⟩ rows1),
        h1, h2, ?_, ?_⟩
      · rw [h3]
        exact add_course_count_self_of_zero _ _ (hf1 a ha_lt)
      · rw [h3, add_course_count_ne _ _ _ (Ne.symm hne)]
        exact hf2 a ha_lt
  | none =>
      obtain ⟨a, ha0, ha1, ha2, ha3, ha4⟩ :=
        runRows_uid_new c1addr tok ⟨g.heap, g.reg, []⟩ rows1 uid hWF hl hu
      refine ⟨a, ha1, ha2, ha3, ha4, ?_⟩
      rw [runRows_count_pres c1addr tok ⟨g.heap, g.reg, []⟩ rows1 c2addr a (Ne.symm hne) ha1]
      rw [if_neg (by omega)]

/-- Claim C1: within one aggregation pass over a shared student registry —
courses fetched sequentially from fresh state, two of them being course
objects c1 and c2 (distinct, each fetching once) whose rosters both contain
`uid` — both `fetch_students` calls succeed, the two courses' `students`
lists hold the very same Student object reference `a`, the registry maps
`uid` to `a` with unique keys (at most one instance per user_id), and that
Student's `courses` list contains each of the two course references exactly
once. -/
theorem C1_shared_registry_identity (tok : String) (pre mid post : List PassStep)
    (c1addr c2addr : Nat) (course1 course2 : Course)
    (rows1 rows2 : List Row) (uid : Nat)
    (g1 : GState) (r1 : FetchSt) (g2 : GState) (r2 : FetchSt) (g3 : GState)
    (hne : c1addr ≠ c2addr)
    (hfresh1 : c1addr ∉ (pre ++ mid ++ post).map PassStep.cAddr)
    (hfresh2 : c2addr ∉ (pre ++ mid ++ post).map PassStep.cAddr)
    (hs1 : course1.students = []) (hs2 : course2.students = [])
    (htok1 : course1.token = tok) (htok2 : course2.token = tok)
    (hu1 : uid ∈ rows1.map Row.user_id) (hu2 : uid ∈ rows2.map Row.user_id)
    (hg1 : g1 = runPassG tok ⟨[], []⟩ pre)
    (hr1 : r1 = runRows c1addr tok ⟨g1.heap, g1.reg, []⟩ rows1)
    (hg2 : g2 = runPassG tok ⟨r1.heap, r1.reg⟩ mid)
    (hr2 : r2 = runRows c2addr tok ⟨g2.heap, g2.reg, []⟩ rows2)
    (hg3 : g3 = runPassG tok ⟨r2.heap, r2.reg⟩ post) :
    fetch_students c1addr course1 g1.heap (some g1.reg) ⟨200, rows1⟩ =
      ⟨.ok (), { course1 with students := r1.students }, r1.heap, some r1.reg⟩ ∧
    fetch_students c2addr course2 g2.heap (some g2.reg) ⟨200, rows2⟩ =
      ⟨.ok (), { course2 with students := r2.students }, r2.heap, some r2.reg⟩ ∧
    ∃ a, lookupReg g3.reg uid = some a ∧
      a ∈ r1.students ∧ a ∈ r2.students ∧
      (heapGet g3.heap a).courses.count c1addr = 1 ∧
      (heapGet g3.heap a).courses.count c2addr = 1 ∧
      (g3.reg.map Prod.fst).Nodup := by
  simp only [List.map_append, List.mem_append, not_or] at hfresh1 hfresh2
  obtain ⟨⟨hpre1, hmid1⟩, hpost1⟩ := hfresh1
  obtain ⟨⟨hpre2, hmid2⟩, hpost2⟩ := hfresh2
  have hWF0 : WF ([] : List Student) [] :=
    ⟨fun p hp => absurd hp (List.not_mem_nil p), List.nodup_nil⟩
  have hfr0 : ∀ x : Nat, freshC x ([] : List Student) := by
    intro x a ha
    simp at ha
  have hWFg1 : WF g1.heap g1.reg := by
    rw [hg1]; exact runPassG_wf tok ⟨[], []⟩ pre hWF0
  have hfr1g1 : freshC c1addr g1.heap := by
    rw [hg1]; exact runPassG_fresh tok ⟨[], []⟩ pre c1addr hpre1 (hfr0 c1addr)
  have hfr2g1 : freshC c2addr g1.heap := by
    rw [hg1]; exact runPassG_fresh tok ⟨[], []⟩ pre c2addr hpre2 (hfr0 c2addr)
  obtain ⟨a, haL1, hres1, hmem1, hc11, hc21⟩ :=
    runRows_first_course c1addr c2addr tok g1 rows1 uid r1 hr1 hne hWFg1 hfr1g1 hfr2g1 hu1
  have hWFr1 : WF r1.heap r1.reg := by
    rw [hr1]; exact runRows_wf c1addr tok ⟨g1.heap, g1.reg, []⟩ rows1 hWFg1
  have hWFg2 : WF g2.heap g2.reg := by
    rw [hg2]; exact runPassG_wf tok ⟨r1.heap, r1.reg⟩ mid hWFr1
  have hlg2 : lookupReg g2.reg uid = some a := by
    rw [hg2]; exact runPassG_reg_stable tok ⟨r1.heap, r1.reg⟩ mid uid a hres1
  have haLg2 : a < g2.heap.length := by
    rw [hg2]; exact lt_of_lt_of_le haL1 (runPassG_heap_le tok ⟨r1.heap, r1.reg⟩ mid)
  have hc1g2 : (heapGet g2.heap a).courses.count c1addr = 1 := by
    rw [hg2, runPassG_count_pres tok ⟨r1.heap, r1.reg⟩ mid c1addr a hmid1 (hg2 ▸ haLg2),
      if_pos haL1]
    exact hc11
  have hc2g2 : (heapGet g2.heap a).courses.count c2addr = 0 := by
    rw [hg2, runPassG_count_pres tok ⟨r1.heap, r1.reg⟩ mid c2addr a hmid2 (hg2 ▸ haLg2),
      if_pos haL1]
    exact hc21
  obtain ⟨hres2, hmem2, hheap2⟩ :=
    runRows_uid_registered c2addr tok ⟨g2.heap, g2.reg, []⟩ rows2 uid a hWFg2 hlg2 hu2
  have hres2' : lookupReg r2.reg uid = some a := by rw [hr2]; exact hres2
  have hmem2' : a ∈ r2.students := by rw [hr2]; exact hmem2
  have hheap2' : heapGet r2.heap a = add_course (heapGet g2.heap a) c2addr := by
    rw [hr2]; exact hheap2
  have haLr2 : a < r2.heap.length := by
    rw [hr2]
    exact lt_of_lt_of_le haLg2 (runRows_heap_le c2addr tok ⟨g2.heap, g2.reg, []⟩ rows2)
  have hc1r2 : (heapGet r2.heap a).courses.count c1addr = 1 := by
    rw [hheap2', add_course_count_ne _ _ _ hne]
    exact hc1g2
  have hc2r2 : (heapGet r2.heap a).courses.count c2addr = 1 := by
    rw [hheap2']
    exact add_course_count_self_of_zero _ _ hc2g2
  have hWFr2 : WF r2.heap r2.reg := by
    rw [hr2]; exact runRows_wf c2addr tok ⟨g2.heap, g2.reg, []⟩ rows2 hWFg2
  have hres3 : lookupReg g3.reg uid = some a := by
    rw [hg3]; exact runPassG_reg_stable tok ⟨r2.heap, r2.reg⟩ post uid a hres2'
  have haLg3 : a < g3.heap.length := by
    rw [hg3]; exact lt_of_lt_of_le haLr2 (runPassG_heap_le tok ⟨r2.heap, r2.reg⟩ post)
  have hc1g3 : (heapGet g3.heap a).courses.count c1addr = 1 := by
    rw [hg3, runPassG_count_pres tok ⟨r2.heap, r2.reg⟩ post c1addr a hpost1 (hg3 ▸ haLg3),
      if_pos haLr2]
    exact hc1r2
  have hc2g3 : (heapGet g3.heap a).courses.count c2addr = 1 := by
    rw [hg3, runPassG_count_pres tok ⟨r2.heap, r2.reg⟩ post c2addr a hpost2 (hg3 ▸ haLg3),
      if_pos haLr2]
    exact hc2r2
  have hnd3 : (g3.reg.map Prod.fst).Nodup := by
    rw [hg3]
    exact (runPassG_wf tok ⟨r2.heap, r2.reg⟩ post hWFr2).2
  refine ⟨?_, ?_, a, hres3, hmem1, hmem2', hc1g3, hc2g3, hnd3⟩
  · show (⟨.ok (), { course1 with
        students := (runRows c1addr course1.token ⟨g1.heap, g1.reg, course1.students⟩ rows1).students },
        (runRows c1addr course1.token ⟨g1.heap, g1.reg, course1.students⟩ rows1).heap,
        some (runRows c1addr course1.token ⟨g1.heap, g1.reg, course1.students⟩ rows1).reg⟩ : FetchOut) = _
    rw [htok1, hs1, ← hr1]
  · show (⟨.ok (), { course2 with
        students := (runRows c2addr course2.token ⟨g2.heap, g2.reg, course2.students⟩ rows2).students },
        (runRows c2addr course2.token ⟨g2.heap, g2.reg, course2.students⟩ rows2).heap,
        some (runRows c2addr course2.token ⟨g2.heap, g2.reg, course2.students⟩ rows2).reg⟩ : FetchOut) = _
    rw [htok2, hs2, ← hr2]

/-- Claim C1, witness: the spec's own scenario — courses CS101 (reference 0)
and MATH201 (reference 1) both fetch a roster containing user 7 against one
shared registry started empty; both hold the Student at heap index 0, whose
`courses` list is [0, 1]. -/
theorem C1_shared_registry_identity_witness :
    fetch_students 0 ⟨"CS101", 1001, "t", [], []⟩ ([] : List Student) (some [])
        ⟨200, [⟨7, "A", "a"⟩]⟩ =
      ⟨.ok (), ⟨"CS101", 1001, "t", [0], []⟩, [⟨7, "A", "a", "t", [0], []⟩], some [(7, 0)]⟩ ∧
    fetch_students 1 ⟨"MATH201", 1002, "t", [], []⟩ [⟨7, "A", "a", "t", [0], []⟩]
        (some [(7, 0)]) ⟨200, [⟨7, "A", "a"⟩]⟩ =
      ⟨.ok (), ⟨"MATH201", 1002, "t", [0], []⟩, [⟨7, "A", "a", "t", [0, 1], []⟩],
        some [(7, 0)]⟩ ∧
    ∃ a, lookupReg [(7, 0)] 7 = some a ∧ a ∈ [0] ∧ a ∈ [0] ∧
      (heapGet [⟨7, "A", "a", "t", [0, 1], []⟩] a).courses.count 0 = 1 ∧
      (heapGet [⟨7, "A", "a", "t", [0, 1], []⟩] a).courses.count 1 = 1 ∧
      (([(7, 0)] : List (Nat × Nat)).map Prod.fst).Nodup :=
  C1_shared_registry_identity "t" [] [] [] 0 1
    ⟨"CS101", 1001, "t", [], []⟩ ⟨"MATH201", 1002, "t", [], []⟩
    [⟨7, "A", "a"⟩] [⟨7, "A", "a"⟩] 7
    ⟨[], []⟩ ⟨[⟨7, "A", "a", "t", [0], []⟩], [(7, 0)], [0]⟩
    ⟨[⟨7, "A", "a", "t", [0], []⟩], [(7, 0)]⟩
    ⟨[⟨7, "A", "a", "t", [0, 1], []⟩], [(7, 0)], [0]⟩
    ⟨[⟨7, "A", "a", "t", [0, 1], []⟩], [(7, 0)]⟩
    (by decide) (by decide) (by decide) rfl rfl rfl rfl (by decide) (by decide)
    (by decide) (by decide) (by decide) (by decide) (by decide)

theorem heapGetC_append_lt (h t : List Course) (a : Nat) (ha : a < h.length) :
    heapGetC (h ++ t) a = heapGetC h a := by
  simp [heapGetC, List.getElem?_append_left ha]

theorem heapGetC_append_self (h : List Course) (c : Course) :
    heapGetC (h ++ [c]) h.length = c := by
  simp [heapGetC, List.getElem?_concat_length]

theorem heapGetA_append_lt (h t : List Assessment) (a : Nat) (ha : a < h.length) :
    heapGetA (h ++ t) a = heapGetA h a := by
  simp [heapGetA, List.getElem?_append_left ha]

theorem heapGetA_append_self (h : List Assessment) (x : Assessment) :
    heapGetA (h ++ [x]) h.length = x := by
  simp [heapGetA, List.getElem?_concat_length]

theorem process_arow_hit (course_id : Nat) (tok : String) (st : AFetchSt) (row : ARow)
    (a : Nat) (h : lookupReg st.areg row.assessment_id = some a) :
    process_arow course_id tok st row =
      ⟨st.aheap, st.areg, st.assessments ++ [a]⟩ := by
  unfold process_arow
  rw [h]

theorem process_arow_miss (course_id : Nat) (tok : String) (st : AFetchSt) (row : ARow)
    (h : lookupReg st.areg row.assessment_id = none) :
    process_arow course_id tok st row =
      ⟨st.aheap ++
        [⟨row.assessment_id, row.assessment_name, row.assessment_label, course_id, tok, []⟩],
       st.areg ++ [(row.assessment_id, st.aheap.length)],
       st.assessments ++ [st.aheap.length]⟩ := by
  unfold process_arow
  rw [h]

theorem process_arow_wfa (course_id : Nat) (tok : String) (st : AFetchSt) (row : ARow)
    (h : WFA st.aheap st.areg) :
    WFA (process_arow course_id tok st row).aheap (process_arow course_id tok st row).areg := by
  obtain ⟨hkey, hnd⟩ := h
  cases hl : lookupReg st.areg row.assessment_id with
  | some a =>
      rw [process_arow_hit course_id tok st row a hl]
      exact ⟨hkey, hnd⟩
  | none =>
      rw [process_arow_miss course_id tok st row hl]
      constructor
      · intro p hp
        rcases List.mem_append.1 hp with hp | hp
        · obtain ⟨hlt, hid⟩ := hkey p hp
          refine ⟨by simp; omega, ?_⟩
          rw [heapGetA_append_lt _ _ _ hlt]
          exact hid
        · have hp' : p = (row.assessment_id, st.aheap.length) := by simpa using hp
          subst hp'
          refine ⟨by simp, ?_⟩
          rw [heapGetA_append_self]
      · simp only [List.map_append]
        rw [List.nodup_append]
        refine ⟨hnd, by simp, ?_⟩
        intro k hk
        simp only [List.map_cons, List.map_nil, List.mem_singleton]
        intro hk2
        subst hk2
        exact absurd hk ((lookupReg_none_iff st.areg row.assessment_id).1 hl)

theorem runARows_nil (course_id : Nat) (tok : String) (st : AFetchSt) :
    runARows course_id tok st [] = st := rfl

theorem runARows_cons (course_id : Nat) (tok : String) (st : AFetchSt) (r : ARow)
    (rows : List ARow) :
    runARows course_id tok st (r :: rows) =
      runARows course_id tok (process_arow course_id tok st r) rows := rfl

theorem runARows_wfa (course_id : Nat) (tok : String) (st : AFetchSt) (rows : List ARow)
    (h : WFA st.aheap st.areg) :
    WFA (runARows course_id tok st rows).aheap (runARows course_id tok st rows).areg := by
  induction rows generalizing st with
  | nil => exact h
  | cons r rows ih =>
      rw [runARows_cons]
      exact ih _ (process_arow_wfa course_id tok st r h)

theorem dictInsert_of_not_mem (d : List (String × Nat)) (k : String) (v : Nat)
    (h : k ∉ d.map Prod.fst) :
    dictInsert d k v = d ++ [(k, v)] := by
  unfold dictInsert
  rw [if_neg]
  intro hc
  obtain ⟨p, hp, hpk⟩ := List.any_eq_true.1 hc
  exact h (List.mem_map.2 ⟨p, hp, by simpa using hpk⟩)

theorem fetch_data_step_ok (tok : String) (rEnv : Nat → GradebookResp) (aEnv : Nat → AssessResp)
    (st : AggState) (spec : String × Nat)
    (h1 : (rEnv spec.2).status = 200) (h2 : (aEnv spec.2).status = 200) :
    fetch_data_step tok rEnv aEnv st spec =
      .ok { cheap := st.cheap ++
              [{ course_code := spec.1, course_id := spec.2, token := tok,
                 students := (runRows st.cheap.length tok ⟨st.sheap, st.sreg, []⟩
                   (rEnv spec.2).body).students,
                 assessments := (runARows spec.2 tok ⟨st.aheap, st.areg, []⟩
                   (aEnv spec.2).body).assessments }],
            sheap := (runRows st.cheap.length tok ⟨st.sheap, st.sreg, []⟩ (rEnv spec.2).body).heap,
            aheap := (runARows spec.2 tok ⟨st.aheap, st.areg, []⟩ (aEnv spec.2).body).aheap,
            gcourses := dictInsert st.gcourses spec.1 st.cheap.length,
            sreg := (runRows st.cheap.length tok ⟨st.sheap, st.sreg, []⟩ (rEnv spec.2).body).reg,
            areg := (runARows spec.2 tok ⟨st.aheap, st.areg, []⟩ (aEnv spec.2).body).areg } := by
  simp only [fetch_data_step, h1, h2, if_true]

theorem fetch_data_go_cons (tok : String) (rEnv : Nat → GradebookResp)
    (aEnv : Nat → AssessResp) (st : AggState) (spec : String × Nat)
    (rest : List (String × Nat)) :
    fetch_data_go tok rEnv aEnv st (spec :: rest) =
      match fetch_data_step tok rEnv aEnv st spec with
      | .error e => .error e
      | .ok st1 => fetch_data_go tok rEnv aEnv st1 rest := rfl

theorem fetch_data_go_ok (tok : String) (rEnv : Nat → GradebookResp)
    (aEnv : Nat → AssessResp) (specs : List (String × Nat)) (st : AggState)
    (hok : ∀ p ∈ specs, (rEnv p.2).status = 200 ∧ (aEnv p.2).status = 200)
    (hWF : WF st.sheap st.sreg) (hWFA : WFA st.aheap st.areg)
    (hWFC : WFC st.cheap st.gcourses)
    (hnd : (st.gcourses.map Prod.fst ++ specs.map Prod.fst).Nodup) :
    ∃ out : AggState,
      fetch_data_go tok rEnv aEnv st specs = .ok out ∧
      out.cheap.length = st.cheap.length + specs.length ∧
      (∀ a, a < st.cheap.length → heapGetC out.cheap a = heapGetC st.cheap a) ∧
      (∀ i, ∀ h : i < specs.length,
        (heapGetC out.cheap (st.cheap.length + i)).course_code = (specs[i]).1 ∧
        (heapGetC out.cheap (st.cheap.length + i)).course_id = (specs[i]).2 ∧
        (heapGetC out.cheap (st.cheap.length + i)).token = tok) ∧
      out.gcourses.map Prod.fst = st.gcourses.map Prod.fst ++ specs.map Prod.fst ∧
      WF out.sheap out.sreg ∧ WFA out.aheap out.areg ∧ WFC out.cheap out.gcourses := by
  induction specs generalizing st with
  | nil =>
      refine ⟨st, rfl, by simp, fun a ha => rfl, fun i h => absurd h (by simp), by simp,
        hWF, hWFA, hWFC⟩
  | cons spec rest ih =>
      obtain ⟨h1, h2⟩ := hok spec (List.mem_cons_self spec rest)
      have hok' : ∀ p ∈ rest, (rEnv p.2).status = 200 ∧ (aEnv p.2).status = 200 :=
        fun p hp => hok p (List.mem_cons_of_mem _ hp)
      have hkn : spec.1 ∉ st.gcourses.map Prod.fst := by
        intro hc
        exact (List.nodup_append.1 hnd).2.2 hc
          (by rw [List.map_cons]; exact List.mem_cons_self _ _)
      have hstep := fetch_data_step_ok tok rEnv aEnv st spec h1 h2
      rw [dictInsert_of_not_mem _ _ _ hkn] at hstep
      have hWF1 := runRows_wf st.cheap.length tok ⟨st.sheap, st.sreg, []⟩ (rEnv spec.2).body hWF
      have hWFA1 := runARows_wfa spec.2 tok ⟨st.aheap, st.areg, []⟩ (aEnv spec.2).body hWFA
      have hWFC1 : WFC (st.cheap ++
            [{ course_code := spec.1, course_id := spec.2, token := tok,
               students := (runRows st.cheap.length tok ⟨st.sheap, st.sreg, []⟩
                 (rEnv spec.2).body).students,
               assessments := (runARows spec.2 tok ⟨st.aheap, st.areg, []⟩
                 (aEnv spec.2).body).assessments }])
          (st.gcourses ++ [(spec.1, st.cheap.length)]) := by
        intro p hp
        rcases List.mem_append.1 hp with hp | hp
        · obtain ⟨hlt, hcode⟩ := hWFC p hp
          refine ⟨by simp; omega, ?_⟩
          rw [heapGetC_append_lt _ _ _ hlt]
          exact hcode
        · have hp' : p = (spec.1, st.cheap.length) := by simpa using hp
          subst hp'
          refine ⟨by simp, ?_⟩
          rw [heapGetC_append_self]
      have hnd1 : ((st.gcourses ++ [(spec.1, st.cheap.length)]).map Prod.fst ++
          rest.map Prod.fst).Nodup := by
        rw [List.map_append, List.append_assoc]
        simpa using hnd
      obtain ⟨out, hgo, hlen, hold, hidx, hkeys, hWF2, hWFA2, hWFC2⟩ :=
        ih ⟨st.cheap ++
              [{ course_code := spec.1, course_id := spec.2, token := tok,
                 students := (runRows st.cheap.length tok ⟨st.sheap, st.sreg, []⟩
                   (rEnv spec.2).body).students,
                 assessments := (runARows spec.2 tok ⟨st.aheap, st.areg, []⟩
                   (aEnv spec.2).body).assessments }],
            (runRows st.cheap.length tok ⟨st.sheap, st.sreg, []⟩ (rEnv spec.2).body).heap,
            (runARows spec.2 tok ⟨st.aheap, st.areg, []⟩ (aEnv spec.2).body).aheap,
            st.gcourses ++ [(spec.1, st.cheap.length)],
            (runRows st.cheap.length tok ⟨st.sheap, st.sreg, []⟩ (rEnv spec.2).body).reg,
            (runARows spec.2 tok ⟨st.aheap, st.areg, []⟩ (aEnv spec.2).body).areg⟩
          hok' hWF1 hWFA1 hWFC1 hnd1
      refine ⟨out, ?_, ?_, ?_, ?_, ?_, hWF2, hWFA2, hWFC2⟩
      · rw [fetch_data_go_cons, hstep]
        exact hgo
      · rw [hlen]
        simp
        omega
      · intro a ha
        rw [hold a (by simp; omega)]
        exact heapGetC_append_lt _ _ _ ha
      · intro i h
        cases i with
        | zero =>
            rw [Nat.add_zero, hold st.cheap.length (by simp), heapGetC_append_self]
            exact ⟨rfl, rfl, rfl⟩
        | succ j =>
            have hj : j < rest.length := by simpa using h
            have hidx' := hidx j hj
            simp only [List.length_append, List.length_cons, List.length_nil] at hidx'
            have haddr : st.cheap.length + (j + 1) = st.cheap.length + (0 + 1) + j := by omega
            rw [haddr]
            simpa using hidx'
      · rw [hkeys]
        rw [List.map_append, List.append_assoc]
        simp

/-- Claim C6: with every transport response successful, `fetch_data` builds
one Course per `course_specs` entry (in iteration order, with that entry's
code and id and the caller's credential), runs `fetch_students` then
`fetch_assessments` on each against the shared registries, and returns the
triple whose first mapping is the courses keyed by course code, second the
shared assessments keyed by `assessment_id`, and third the shared students
keyed by `user_id`. -/
theorem C6_fetch_data_shape (specs : List (String × Nat)) (tok : String)
    (rEnv : Nat → GradebookResp) (aEnv : Nat → AssessResp)
    (hnd : (specs.map Prod.fst).Nodup)
    (hok : ∀ p ∈ specs, (rEnv p.2).status = 200 ∧ (aEnv p.2).status = 200) :
    ∃ (byCode : List (String × Nat)) (byAid byUid : List (Nat × Nat)) (hp : Heaps),
      fetch_data specs tok rEnv aEnv = .ok ((byCode, byAid, byUid), hp) ∧
      hp.cheap.length = specs.length ∧
      (∀ i, ∀ h : i < specs.length,
        (heapGetC hp.cheap i).course_code = (specs[i]).1 ∧
        (heapGetC hp.cheap i).course_id = (specs[i]).2 ∧
        (heapGetC hp.cheap i).token = tok) ∧
      byCode.map Prod.fst = specs.map Prod.fst ∧
      (∀ p ∈ byCode, p.2 < hp.cheap.length ∧ (heapGetC hp.cheap p.2).course_code = p.1) ∧
      (∀ p ∈ byAid, p.2 < hp.aheap.length ∧ (heapGetA hp.aheap p.2).assessment_id = p.1) ∧
      (∀ p ∈ byUid, p.2 < hp.sheap.length ∧ (heapGet hp.sheap p.2).user_id = p.1) ∧
      (byAid.map Prod.fst).Nodup ∧ (byUid.map Prod.fst).Nodup := by
  have hWF0 : WF ([] : List Student) [] :=
    ⟨fun p hp => absurd hp (List.not_mem_nil p), List.nodup_nil⟩
  have hWFA0 : WFA ([] : List Assessment) [] :=
    ⟨fun p hp => absurd hp (List.not_mem_nil p), List.nodup_nil⟩
  have hWFC0 : WFC ([] : List Course) [] :=
    fun p hp => absurd hp (List.not_mem_nil p)
  obtain ⟨out, hgo, hlen, hold, hidx, hkeys, hWF2, hWFA2, hWFC2⟩ :=
    fetch_data_go_ok tok rEnv aEnv specs ⟨[], [], [], [], [], []⟩ hok hWF0 hWFA0 hWFC0
      (by simpa using hnd)
  refine ⟨out.gcourses, out.areg, out.sreg, ⟨out.cheap, out.sheap, out.aheap⟩,
    ?_, ?_, ?_, ?_, hWFC2, hWFA2.1, hWF2.1, hWFA2.2, hWF2.2⟩
  · unfold fetch_data
    rw [hgo]
  · simpa using hlen
  · intro i h
    simpa using hidx i h
  · simpa using hkeys

/-- Claim C6, witness: two course entries with all responses successful. -/
theorem C6_fetch_data_shape_witness :
    ∃ (byCode : List (String × Nat)) (byAid byUid : List (Nat × Nat)) (hp : Heaps),
      fetch_data [("CS101", 1001), ("MATH201", 1002)] "t"
          (fun _ => ⟨200, [⟨7, "A", "a"⟩]⟩) (fun cid => ⟨200, [⟨cid + 5, "HW1", "HW"⟩]⟩) =
        .ok ((byCode, byAid, byUid), hp) ∧
      hp.cheap.length = 2 ∧
      (∀ i, ∀ h : i < ([("CS101", 1001), ("MATH201", 1002)] : List (String × Nat)).length,
        (heapGetC hp.cheap i).course_code = ([("CS101", 1001), ("MATH201", 1002)][i]).1 ∧
        (heapGetC hp.cheap i).course_id = ([("CS101", 1001), ("MATH201", 1002)][i]).2 ∧
        (heapGetC hp.cheap i).token = "t") ∧
      byCode.map Prod.fst = ["CS101", "MATH201"] ∧
      (∀ p ∈ byUid, p.2 < hp.sheap.length ∧ (heapGet hp.sheap p.2).user_id = p.1) := by
  obtain ⟨byCode, byAid, byUid, hp, hfd, hlen, hidx, hkeys, _, _, huid, _, _⟩ :=
    C6_fetch_data_shape [("CS101", 1001), ("MATH201", 1002)] "t"
      (fun _ => ⟨200, [⟨7, "A", "a"⟩]⟩) (fun cid => ⟨200, [⟨cid + 5, "HW1", "HW"⟩]⟩)
      (by decide) (by decide)
  exact ⟨byCode, byAid, byUid, hp, hfd, by simpa using hlen, hidx, by simpa using hkeys, huid⟩
